import Mathlib

/-!
Shallow embedding of the rkvr archive lifecycle (src/main.rs): path
handling, the already-compressed classification, the ownership policy in
archive_group, the ordering of metadata and artifact writes in archive,
batch-identifier assignment, the retention sweep (cleanup), metadata
creation (create_metadata / resolve_eza_path), tar argument construction
(create_tar_command) and recovery (recover), together with theorems about
these definitions.
-/

namespace Rkvr

/-- A normalized path component, as produced by Rust Path::components:
either a parent-directory step (..) or a normal name. -/
inductive Comp where
  | parent : Comp
  | normal : String → Comp
deriving DecidableEq, Repr

/-- A filesystem path: an absoluteness flag plus normalized components.
Models std::path::Path / PathBuf. -/
structure FsPath where
  absolute : Bool
  comps : List Comp
deriving DecidableEq, Repr

/-- Models Path::file_name: the last component when it is a normal name,
none when the path is empty, is the root, or ends in a parent step. -/
def FsPath.fileName (p : FsPath) : Option String :=
  match p.comps.getLast? with
  | some (Comp.normal s) => some s
  | _ => none

/-- Component-wise prefix test used to model Path::strip_prefix. -/
def listStarts : List Comp → List Comp → Bool
  | [], _ => true
  | _ :: _, [] => false
  | c :: cs, d :: ds => if c = d then listStarts cs ds else false

/-- Models Path::strip_prefix (main.rs uses it in create_tar_command,
archive_directory, tar_gz_files, categorize_paths): succeeds when base is
a component-wise prefix of p with the same absoluteness; the remainder is
a relative path. -/
def FsPath.dropBase (p base : FsPath) : Option FsPath :=
  if p.absolute = base.absolute ∧ listStarts base.comps p.comps = true then
    some ⟨false, p.comps.drop base.comps.length⟩
  else
    none

/-- Models Path::join: an absolute right operand replaces the left one. -/
def FsPath.join (p q : FsPath) : FsPath :=
  if q.absolute then q else ⟨p.absolute, p.comps ++ q.comps⟩

/-- Models Path::parent: drop the last component; none for the root or
the empty relative path. -/
def FsPath.parent (p : FsPath) : Option FsPath :=
  match p.comps with
  | [] => none
  | _ :: _ => some ⟨p.absolute, p.comps.dropLast⟩

/-- Textual rendering of one component (for Path::display). -/
def Comp.render : Comp → String
  | Comp.parent => ".."
  | Comp.normal s => s

/-- Models Path::display().to_string(). -/
def FsPath.render (p : FsPath) : String :=
  (if p.absolute then "/" else "") ++ String.intercalate "/" (p.comps.map Comp.render)

/-- Splits a file name (as characters) at its last dot, returning the
part before and the part after that dot. -/
def lastDotSplit : List Char → Option (List Char × List Char)
  | [] => none
  | c :: cs =>
    match lastDotSplit cs with
    | some (b, a) => some (c :: b, a)
    | none => if c = '.' then some ([], cs) else none

/-- Models Path::extension restricted to a file name: the portion after
the last dot, none when there is no dot or when the only dot is the
leading one (hidden files like .gitignore have no extension). -/
def extensionOfName (f : String) : Option String :=
  match lastDotSplit f.data with
  | some (b, a) => if b.isEmpty then none else some (String.mk a)
  | none => none

/-- Models Path::extension: the extension of the file name, if any. -/
def FsPath.extension (p : FsPath) : Option String :=
  match FsPath.fileName p with
  | some n => extensionOfName n
  | none => none

/-- ASCII lowercase of one character (str::to_lowercase restricted to the
ASCII range, which is all is_archive compares against). -/
def lowerChar (c : Char) : Char :=
  if 65 ≤ c.toNat ∧ c.toNat ≤ 90 then Char.ofNat (c.toNat + 32) else c

/-- ASCII lowercase of a string. -/
def lowerStr (s : String) : String := String.mk (s.data.map lowerChar)

/-- The fixed extension set recognized by is_archive (main.rs:361). -/
def archiveExts : List String := ["tar", "gz", "tgz", "xz", "zip", "7z"]

/-- Models is_archive (main.rs:359-365): lowercased final extension
matched against the fixed set; no extension means not an archive. -/
def is_archive (p : FsPath) : Bool :=
  match (FsPath.extension p).map lowerStr with
  | some ext =>
      ext == "tar" || ext == "gz" || ext == "tgz" || ext == "xz" || ext == "zip" || ext == "7z"
  | none => false

/-- A file involved in an archive unit: its resolved path and the uid of
its owner (fs::metadata(..).uid()). -/
structure FileInfo where
  path : FsPath
  uid : Nat
deriving DecidableEq, Repr

/-- Observable side effects of the archive pipeline, in execution order. -/
inductive Event where
  | metaWritten : Event
  | copiedFile : FsPath → Event
  | bundleCreated : List FsPath → Event
  | targetsRemoved : Event
deriving DecidableEq, Repr

/-- An archival artifact write: a verbatim copy or a compressed bundle. -/
def isArtifact : Event → Bool
  | Event.copiedFile _ => true
  | Event.bundleCreated _ => true
  | _ => false

/-- Failure modes of the archive pipeline that the claims distinguish. -/
inductive ArchiveErr where
  | privilegeDenied : ArchiveErr
  | listingFailed : ArchiveErr
deriving DecidableEq, Repr

/-- Models copy_files (main.rs:367-393): each source owned by the invoker
is copied directly; a foreign-owned source requires the sudoFlag flag and is
otherwise a privilege error that stops the loop. The returned events are
the copies performed before any failure. -/
def copy_files (me : Nat) (sudoFlag : Bool) : List FileInfo → List Event × Option ArchiveErr
  | [] => ([], none)
  | f :: rest =>
    if f.uid = me then
      ((copy_files me sudoFlag rest).1.cons (Event.copiedFile f.path), (copy_files me sudoFlag rest).2)
    else if sudoFlag then
      ((copy_files me sudoFlag rest).1.cons (Event.copiedFile f.path), (copy_files me sudoFlag rest).2)
    else
      ([], some ArchiveErr.privilegeDenied)

/-- Models archive_group (main.rs:427-452): compute need_sudo over the
whole group, fail closed when sudoFlag is disabled, then partition on
!is_archive into (bundle, loose); the loose files (the already-compressed
ones) are copied, the bundle files are combined into one tar.gz. -/
def archive_group (me : Nat) (group : List FileInfo) (sudoFlag : Bool) : List Event × Option ArchiveErr :=
  if group.any (fun f => f.uid != me) && !sudoFlag then
    ([], some ArchiveErr.privilegeDenied)
  else
    let needSudo := group.any (fun f => f.uid != me)
    let bundle := (group.partition (fun f => !is_archive f.path)).1
    let loose := (group.partition (fun f => !is_archive f.path)).2
    let cr := if loose.isEmpty then ([], none) else copy_files me needSudo loose
    match cr.2 with
    | some e => (cr.1, some e)
    | none =>
      (cr.1 ++ (if bundle.isEmpty then [] else [Event.bundleCreated (bundle.map (fun f => f.path))]),
       none)

/-- Models the body of the file-group loop in archive (main.rs:525-544):
create_metadata runs first (it fails when the listing utility is
unavailable, modelled by ezaOk), then archive_group. -/
def archiveGroupUnit (me : Nat) (ezaOk : Bool) (group : List FileInfo) (sudoFlag : Bool) :
    List Event × Option ArchiveErr :=
  if !ezaOk then
    ([], some ArchiveErr.listingFailed)
  else
    ((archive_group me group sudoFlag).1.cons Event.metaWritten, (archive_group me group sudoFlag).2)

/-- Models the file-group loop of archive: units run in order, an error in
one unit aborts the invocation (the ? operator), keeping the side effects
already performed. Empty groups are skipped. -/
def archiveGroups (me : Nat) (ezaOk : Bool) (sudoFlag : Bool) :
    List (List FileInfo) → List Event × Option ArchiveErr
  | [] => ([], none)
  | g :: rest =>
    if g.isEmpty then archiveGroups me ezaOk sudoFlag rest
    else
      match (archiveGroupUnit me ezaOk g sudoFlag).2 with
      | some e => ((archiveGroupUnit me ezaOk g sudoFlag).1, some e)
      | none =>
        ((archiveGroupUnit me ezaOk g sudoFlag).1 ++ (archiveGroups me ezaOk sudoFlag rest).1,
         (archiveGroups me ezaOk sudoFlag rest).2)

/-- Models archive (main.rs:514-569) on its file-group portion: process
all units, then remove the original targets only when every unit
succeeded and the remove flag is set. -/
def archiveInvocation (me : Nat) (ezaOk : Bool) (groups : List (List FileInfo))
    (sudoFlag removeFlag : Bool) : List Event × Option ArchiveErr :=
  match (archiveGroups me ezaOk sudoFlag groups).2 with
  | some e => ((archiveGroups me ezaOk sudoFlag groups).1, some e)
  | none =>
    if removeFlag then ((archiveGroups me ezaOk sudoFlag groups).1 ++ [Event.targetsRemoved], none)
    else ((archiveGroups me ezaOk sudoFlag groups).1, none)

/-- A user-supplied target for categorize_paths: the path as given (and
resolved), whether canonicalization succeeds (the path exists), and
whether it is a directory. -/
structure Target where
  path : FsPath
  present : Bool
  isDir : Bool
deriving DecidableEq, Repr

/-- The error produced by categorize_paths for a missing target
(main.rs:463-464: "{}: No such file or directory"). -/
inductive CatErr where
  | noSuchFile : FsPath → CatErr
deriving DecidableEq, Repr

/-- Appends a file to its parent-directory group, preserving first-use
order of keys (models the HashMap entry().or_insert().push()). -/
def insertGroup (key : FsPath) (p : FsPath) :
    List (FsPath × List FsPath) → List (FsPath × List FsPath)
  | [] => [(key, [p])]
  | (k, ps) :: rest =>
    if k = key then (k, ps ++ [p]) :: rest else (k, ps) :: insertGroup key p rest

/-- Loop of categorize_paths (main.rs:454-501): canonicalize each target
(a missing target is an error that propagates immediately via ?),
directories are collected as units of their own, files are grouped by the
parent directory computed from the cwd-relative path. -/
def categorizePathsAux (cwd : FsPath) :
    List Target → List FsPath → List (FsPath × List FsPath) →
    Except CatErr (List FsPath × List (FsPath × List FsPath))
  | [], dirs, groups => Except.ok (dirs, groups)
  | t :: rest, dirs, groups =>
    if t.present = false then
      Except.error (CatErr.noSuchFile t.path)
    else if t.isDir then
      categorizePathsAux cwd rest (dirs ++ [t.path]) groups
    else
      let rel := match FsPath.dropBase t.path cwd with
        | some r => r
        | none => t.path
      let groupKey := match FsPath.parent rel with
        | some par => FsPath.join cwd par
        | none => (FsPath.parent t.path).getD t.path
      categorizePathsAux cwd rest dirs (insertGroup groupKey t.path groups)

/-- Models categorize_paths: run the loop with empty accumulators. -/
def categorizePaths (cwd : FsPath) (targets : List Target) :
    Except CatErr (List FsPath × List (FsPath × List FsPath)) :=
  categorizePathsAux cwd targets [] []

/-- Batch identifier of the file group at the given index
(main.rs:527: timestamp + group_index * 1000, u64 arithmetic). -/
def groupTimestamp (t g : Nat) : Nat := (t + g * 1000) % 2 ^ 64

/-- Batch identifier of the directory at the given index
(main.rs:548: timestamp + 10000 + dir_index * 1000, u64 arithmetic). -/
def dirTimestamp (t d : Nat) : Nat := (t + 10000 + d * 1000) % 2 ^ 64

/-- One immediate entry of the destination root as seen by cleanup: its
name, last-modified time (seconds), whether it is a directory, and
whether removing it succeeds (permissions, sudoFlag availability). -/
structure SweepEntry where
  name : String
  mtime : Nat
  isDir : Bool
  deleteOk : Bool
deriving DecidableEq, Repr

/-- Age threshold of cleanup (main.rs:175): days converted to seconds. -/
def cleanupThreshold (days : Nat) : Nat := 60 * 60 * 24 * days

/-- Expiry test of cleanup (main.rs:192-198): duration_since succeeds
only when the modification time is not in the future, and the entry is
deleted when that duration exceeds the threshold. -/
def expired (now threshold : Nat) (e : SweepEntry) : Bool :=
  e.mtime ≤ now && now - e.mtime > threshold

/-- Models cleanup (main.rs:169-215): walk the entries in order; an
expired entry is removed, and a removal failure propagates via ? and
stops the loop. Returns (remaining entries, deleted entries, success). -/
def cleanupRun (now days : Nat) : List SweepEntry → List SweepEntry × List SweepEntry × Bool
  | [] => ([], [], true)
  | e :: rest =>
    if expired now (cleanupThreshold days) e then
      if e.deleteOk then
        ((cleanupRun now days rest).1,
         (cleanupRun now days rest).2.1.cons e,
         (cleanupRun now days rest).2.2)
      else
        (e :: rest, [], false)
    else
      ((cleanupRun now days rest).1.cons e,
       (cleanupRun now days rest).2.1,
       (cleanupRun now days rest).2.2)

/-- A file inside a batch directory during recovery: its base name and
whether restoring it (copy back or extraction) succeeds. -/
structure BatchFile where
  name : String
  restoreOk : Bool
deriving DecidableEq, Repr

/-- Observable side effects of recover, in execution order. -/
inductive REvent where
  | extracted : String → REvent
  | restoredCopy : String → REvent
  | batchRemoved : REvent
deriving DecidableEq, Repr

/-- One restoration loop of recover: restore members in order, a failure
propagates via ? keeping the events already performed. -/
def runRestores (mk : String → REvent) : List BatchFile → List REvent × Bool
  | [] => ([], true)
  | f :: rest =>
    if f.restoreOk then
      ((runRestores mk rest).1.cons (mk f.name), (runRestores mk rest).2)
    else
      ([], false)

/-- The members of a batch directory: every file except metadata.yml
(main.rs:759-761). -/
def batchEntries (files : List BatchFile) : List BatchFile :=
  files.filter (fun f => f.name ≠ "metadata.yml")

/-- The restoration sequence of recover (main.rs:767-777) on the already
partitioned members: extract all bundles, then restore all copies, and
remove the batch directory only when everything succeeded; a failure
propagates via ? and leaves the batch directory in place. -/
def recoverCore (toCopy toExtract : List BatchFile) : List REvent × Bool :=
  if (runRestores REvent.extracted toExtract).2 = false then
    ((runRestores REvent.extracted toExtract).1, false)
  else if (runRestores REvent.restoredCopy toCopy).2 = false then
    ((runRestores REvent.extracted toExtract).1 ++ (runRestores REvent.restoredCopy toCopy).1,
     false)
  else
    ((runRestores REvent.extracted toExtract).1 ++ (runRestores REvent.restoredCopy toCopy).1
       ++ [REvent.batchRemoved],
     true)

/-- Models the per-batch body of recover (main.rs:748-780): partition the
members on membership of their name in the metadata targets (matches are
copied back, the rest are extracted), then run the restoration
sequence. -/
def recoverBatch (origs : List String) (files : List BatchFile) : List REvent × Bool :=
  recoverCore ((batchEntries files).partition (fun f => origs.contains f.name)).1
    ((batchEntries files).partition (fun f => origs.contains f.name)).2

/-- Environment of resolve_eza_path: the result of which("eza"), the
SUDO_USER variable, and the outcome of the which lookup re-run as the
original user (some path only when that run succeeds with a nonempty
existing path). -/
structure EzaEnv where
  whichEza : Option String
  sudoUser : Option String
  sudoWhich : Option String
deriving DecidableEq, Repr

/-- Failure modes of create_metadata that the claims distinguish. -/
inductive MetaErr where
  | ezaNotFound : MetaErr
  | execFailed : MetaErr
deriving DecidableEq, Repr

/-- Models resolve_eza_path (main.rs:217-241): try which("eza") first,
then, under SUDO_USER, a which lookup as the original user; bail when
both fail. -/
def resolve_eza_path (env : EzaEnv) : Except MetaErr String :=
  match env.whichEza with
  | some p => Except.ok p
  | none =>
    match env.sudoUser with
    | some _ =>
      match env.sudoWhich with
      | some p => Except.ok p
      | none => Except.error MetaErr.ezaNotFound
    | none => Except.error MetaErr.ezaNotFound

/-- The original base name recorded for a target (main.rs:261-268):
file_name when present, the displayed path otherwise. -/
def targetName (p : FsPath) : String :=
  match FsPath.fileName p with
  | some n => n
  | none => FsPath.render p

/-- The metadata record written as metadata.yml (main.rs:47-53). -/
structure MetadataRec where
  cwd : FsPath
  targets : List String
  contents : String
deriving DecidableEq, Repr

/-- Models create_metadata (main.rs:243-280): resolving eza failing or the
listing command failing to launch aborts with an error (the ? operator);
when the command runs, its stdout is recorded verbatim with no exit-status
check. exec is none when the command cannot be launched, otherwise
(status-success, stdout). -/
def create_metadata (env : EzaEnv) (exec : Option (Bool × String)) (cwd : FsPath)
    (targets : List FsPath) : Except MetaErr MetadataRec :=
  match resolve_eza_path env with
  | Except.error e => Except.error e
  | Except.ok _ =>
    match exec with
    | none => Except.error MetaErr.execFailed
    | some (_, stdout) =>
      Except.ok ⟨cwd, targets.map targetName, stdout⟩

/-- Relativization of one target in create_tar_command (main.rs:283-301):
an absolute target is stripped of the cwd, falling back to its file name,
falling back to the target unchanged; a relative target passes through. -/
def relativizeTarget (cwd : FsPath) (t : FsPath) : FsPath :=
  if t.absolute then
    match FsPath.dropBase t cwd with
    | some rel => rel
    | none =>
      match FsPath.fileName t with
      | some n => ⟨false, [Comp.normal n]⟩
      | none => t
  else t

/-- The path arguments handed to the tar child process by
create_tar_command. -/
def tarArgs (cwd : FsPath) (targets : List FsPath) : List FsPath :=
  targets.map (relativizeTarget cwd)

/-- Relativization of one group member in tar_gz_files (main.rs:405-416):
strip the cwd, falling back to the file name, falling back to the full
path. -/
def looseRelativize (cwd : FsPath) (p : FsPath) : FsPath :=
  match FsPath.dropBase p cwd with
  | some r => r
  | none =>
    match FsPath.fileName p with
    | some n => ⟨false, [Comp.normal n]⟩
    | none => p

/-- Example path /home/a.txt (an ordinary, not-already-compressed file). -/
def paTxt : FsPath := ⟨true, [Comp.normal "home", Comp.normal "a.txt"]⟩

/-- Example path /home/b.tar.gz (an already-compressed file). -/
def paTgz : FsPath := ⟨true, [Comp.normal "home", Comp.normal "b.tar.gz"]⟩

/-- Example working directory /home. -/
def cwd0 : FsPath := ⟨true, [Comp.normal "home"]⟩

/-- The root path /, which has no file name. -/
def rootPath : FsPath := ⟨true, []⟩

/-- Example archive unit owned by the invoking user (uid 1000). -/
def exG1 : List FileInfo := [⟨paTxt, 1000⟩]

/-- Example archive unit containing a foreign-owned file (uid 0). -/
def exG2 : List FileInfo := [⟨paTxt, 0⟩]

/-- Example archive unit mixing an ordinary file and an already-compressed
file, both owned by the invoking user. -/
def exMix : List FileInfo := [⟨paTxt, 1000⟩, ⟨paTgz, 1000⟩]

/-- Example batch contents mirroring the spec recovery scenario:
a copied-back target, a bundle, and the metadata file. -/
def exBatch : List BatchFile := [⟨"a.txt", true⟩, ⟨"others.tar.gz", true⟩, ⟨"metadata.yml", true⟩]

/-- Example missing target /home/x. -/
def mTgt : Target := ⟨⟨true, [Comp.normal "home", Comp.normal "x"]⟩, false, false⟩

/-- Example existing directory target /home/d. -/
def dTgt : Target := ⟨⟨true, [Comp.normal "home", Comp.normal "d"]⟩, true, true⟩

/-- Example expired sweep entry whose removal fails. -/
def badE : SweepEntry := ⟨"a", 0, true, false⟩

/-- Example expired sweep entry whose removal would succeed. -/
def goodE : SweepEntry := ⟨"b", 0, true, true⟩

/-- The metadata file is the last event of a trace after every artifact:
every artifact event precedes every metadata event. -/
def metadataLast (tr : List Event) : Prop :=
  ∀ (i j : Fin tr.length),
    tr.get i = Event.metaWritten → isArtifact (tr.get j) = true → j.val < i.val

/-- Claim C1 as stated: in every successfully archived unit, the metadata
file is written only after every archival artifact of that unit. -/
def claimC1prop : Prop :=
  ∀ (me : Nat) (group : List FileInfo) (sudoFlag : Bool),
    (archiveGroupUnit me true group sudoFlag).2 = none →
    metadataLast (archiveGroupUnit me true group sudoFlag).1

/-- Claim C2 as stated: a unit with a foreign-owned member archived with
the sudo policy disabled fails with a privilege error and produces no
artifact, no metadata file, and no deletion of the original targets. -/
def claimC2prop : Prop :=
  ∀ (me : Nat) (group : List FileInfo),
    (∃ f ∈ group, f.uid ≠ me) →
    (archiveGroupUnit me true group false).2 = some ArchiveErr.privilegeDenied ∧
    (∀ e ∈ (archiveGroupUnit me true group false).1, isArtifact e = false) ∧
    Event.metaWritten ∉ (archiveGroupUnit me true group false).1 ∧
    ∀ (gs : List (List FileInfo)) (removeFlag : Bool), group ∈ gs →
      Event.targetsRemoved ∉ (archiveInvocation me true gs false removeFlag).1

/-- Claim C3 as stated: a missing target is reported as an error naming
that target, and the remaining existing targets are still processed
(their categorization is still produced). -/
def claimC3prop : Prop :=
  ∀ (cwd : FsPath) (ts : List Target) (t : Target), t ∈ ts → t.present = false →
    categorizePaths cwd ts = Except.error (CatErr.noSuchFile t.path) ∧
    ∀ s ∈ ts, s.present = true → s.isDir = true →
      ∃ dirs groups, categorizePaths cwd ts = Except.ok (dirs, groups) ∧ s.path ∈ dirs

/-- Claim C4 as stated: for any base timestamp and any numbers of file
groups and directories, the assigned batch identifiers are pairwise
distinct. -/
def claimC4prop : Prop :=
  ∀ t nG nD : Nat,
    (∀ g1, g1 < nG → ∀ g2, g2 < nG → groupTimestamp t g1 = groupTimestamp t g2 → g1 = g2) ∧
    (∀ d1, d1 < nD → ∀ d2, d2 < nD → dirTimestamp t d1 = dirTimestamp t d2 → d1 = d2) ∧
    (∀ g, g < nG → ∀ d, d < nD → groupTimestamp t g ≠ dirTimestamp t d)

/-- Claim C5 as stated: every age-expired entry whose removal can succeed
is deleted by the sweep, even when deleting some other entry fails. -/
def claimC5prop : Prop :=
  ∀ (now days : Nat) (entries : List SweepEntry) (e : SweepEntry),
    e ∈ entries → expired now (cleanupThreshold days) e = true → e.deleteOk = true →
    e ∈ (cleanupRun now days entries).2.1

/-- Claim C8 as stated: every path argument handed to the compression
child process is relative, never absolute. -/
def claimC8prop : Prop :=
  ∀ (cwd : FsPath) (targets : List FsPath) (r : FsPath),
    r ∈ tarArgs cwd targets → r.absolute = false

/-- Claim C9 as stated: any failure to obtain the directory listing
degrades to recording an empty listing instead of aborting the unit. -/
def claimC9prop : Prop :=
  ∀ (env : EzaEnv) (exec : Option (Bool × String)) (cwd : FsPath) (targets : List FsPath),
    (resolve_eza_path env = Except.error MetaErr.ezaNotFound ∨ exec = none ∨
      (∃ out, exec = some (false, out))) →
    ∃ rec, create_metadata env exec cwd targets = Except.ok rec ∧ rec.contents = ""

/-- Claim C4 fails on the code: with 11 file groups and one directory in
one invocation, the group at index 10 gets identifier t + 10000, the same
as the directory at index 0. -/
theorem c4_counterexample : ¬ claimC4prop := by
  intro h
  exact (h 0 11 1).2.2 10 (by norm_num) 0 (by norm_num) (by decide)

/-- Claim C4 amended: the batch identifiers of one invocation are
pairwise distinct provided the invocation has at most 10 file groups and
the u64 identifier arithmetic does not wrap. -/
theorem c4_identifiers_distinct (t nG nD : Nat) (h1 : nG ≤ 10)
    (h2 : t + 10000 + nD * 1000 < 2 ^ 64) :
    (∀ g1, g1 < nG → ∀ g2, g2 < nG → groupTimestamp t g1 = groupTimestamp t g2 → g1 = g2) ∧
    (∀ d1, d1 < nD → ∀ d2, d2 < nD → dirTimestamp t d1 = dirTimestamp t d2 → d1 = d2) ∧
    (∀ g, g < nG → ∀ d, d < nD → groupTimestamp t g ≠ dirTimestamp t d) := by
  have hpow : (2 : Nat) ^ 64 = 18446744073709551616 := by norm_num
  have hg : ∀ g, g < nG → groupTimestamp t g = t + g * 1000 := by
    intro g hgn
    unfold groupTimestamp
    apply Nat.mod_eq_of_lt
    omega
  have hd : ∀ d, d < nD → dirTimestamp t d = t + 10000 + d * 1000 := by
    intro d hdn
    unfold dirTimestamp
    apply Nat.mod_eq_of_lt
    omega
  refine ⟨?_, ?_, ?_⟩
  · intro g1 hg1 g2 hg2 heq
    rw [hg g1 hg1, hg g2 hg2] at heq
    omega
  · intro d1 hd1 d2 hd2 heq
    rw [hd d1 hd1, hd d2 hd2] at heq
    omega
  · intro g hgn d hdn heq
    rw [hg g hgn, hd d hdn] at heq
    omega

/-- Witness for c4_identifiers_distinct at t = 5, two groups and two
directories. -/
theorem c4_identifiers_distinct_witness :
    2 ≤ 10 ∧ 5 + 10000 + 2 * 1000 < 2 ^ 64 ∧
    ((∀ g1, g1 < 2 → ∀ g2, g2 < 2 → groupTimestamp 5 g1 = groupTimestamp 5 g2 → g1 = g2) ∧
     (∀ d1, d1 < 2 → ∀ d2, d2 < 2 → dirTimestamp 5 d1 = dirTimestamp 5 d2 → d1 = d2) ∧
     (∀ g, g < 2 → ∀ d, d < 2 → groupTimestamp 5 g ≠ dirTimestamp 5 d)) :=
  ⟨by norm_num, by norm_num, c4_identifiers_distinct 5 2 2 (by norm_num) (by norm_num)⟩

/-- Claim C5 fails on the code: when the first expired entry cannot be
deleted, cleanup propagates the failure and the second expired,
deletable entry is not deleted. -/
theorem c5_counterexample : ¬ claimC5prop := by
  intro h
  have h2 := h 100000 0 [badE, goodE] goodE (by decide) (by decide) rfl
  exact absurd h2 (by decide)

/-- Claim C5 amended: a failure to delete one age-expired entry aborts
the sweep at that entry; no entry is deleted in that run and the entries
after the failing one are not evaluated. -/
theorem c5_failure_aborts (now days : Nat) (e : SweepEntry) (rest : List SweepEntry)
    (h1 : expired now (cleanupThreshold days) e = true) (h2 : e.deleteOk = false) :
    cleanupRun now days (e :: rest) = (e :: rest, [], false) := by
  simp [cleanupRun, h1, h2]

/-- Witness for c5_failure_aborts on a concrete root state. -/
theorem c5_failure_aborts_witness :
    expired 100000 (cleanupThreshold 0) badE = true ∧ badE.deleteOk = false ∧
    cleanupRun 100000 0 (badE :: [goodE]) = (badE :: [goodE], [], false) :=
  ⟨by decide, rfl, c5_failure_aborts 100000 0 badE [goodE] (by decide) rfl⟩

/-- Claim C6 confirmed: with the clock and threshold fixed, running the
sweep on the state left by a previous sweep changes nothing and deletes
nothing (idempotence, whether or not the first run succeeded). -/
theorem c6_sweep_idempotent (now days : Nat) (entries : List SweepEntry) :
    cleanupRun now days ((cleanupRun now days entries).1)
      = ((cleanupRun now days entries).1, [], (cleanupRun now days entries).2.2) := by
  induction entries with
  | nil => rfl
  | cons e rest ih =>
    by_cases hE : expired now (cleanupThreshold days) e = true
    · by_cases hD : e.deleteOk = true
      · simpa [cleanupRun, hE, hD] using ih
      · have hD2 : e.deleteOk = false := by simpa using hD
        simp [cleanupRun, hE, hD2]
    · have hE2 : expired now (cleanupThreshold days) e = false := by simpa using hE
      simp [cleanupRun, hE2, ih]

/-- Witness for c6_sweep_idempotent on a concrete root state. -/
theorem c6_sweep_idempotent_witness :
    cleanupRun 100000 0 ((cleanupRun 100000 0 [badE, goodE]).1)
      = ((cleanupRun 100000 0 [badE, goodE]).1, [], (cleanupRun 100000 0 [badE, goodE]).2.2) :=
  c6_sweep_idempotent 100000 0 [badE, goodE]

/-- Helper: categorize_paths errors out at the first missing target,
whatever the accumulators hold. -/
theorem categorizeAux_missing (cwd : FsPath) (pre : List Target) (t : Target)
    (post : List Target) :
    ∀ (dirs : List FsPath) (groups : List (FsPath × List FsPath)),
      (∀ s ∈ pre, s.present = true) → t.present = false →
      categorizePathsAux cwd (pre ++ t :: post) dirs groups
        = Except.error (CatErr.noSuchFile t.path) := by
  induction pre with
  | nil =>
    intro dirs groups hpre ht
    simp [categorizePathsAux, ht]
  | cons s rest ih =>
    intro dirs groups hpre ht
    have hs : s.present = true := hpre s (by simp)
    by_cases hd : s.isDir = true
    · simp only [List.cons_append, categorizePathsAux, hs, hd]
      simp only [Bool.true_eq_false, if_false, if_true]
      exact ih _ _ (fun x hx => hpre x (by simp [hx])) ht
    · have hd2 : s.isDir = false := by simpa using hd
      simp only [List.cons_append, categorizePathsAux, hs, hd2]
      simp only [Bool.true_eq_false, if_false, Bool.false_eq_true]
      exact ih _ _ (fun x hx => hpre x (by simp [hx])) ht

/-- Claim C3 fails on the code: with a missing target followed by an
existing directory, categorize_paths returns only the error; the sibling
directory is not categorized at all. -/
theorem c3_counterexample : ¬ claimC3prop := by
  intro h
  obtain ⟨h1, h2⟩ := h cwd0 [mTgt, dTgt] mTgt (by decide) rfl
  obtain ⟨dirs, groups, heq, _⟩ := h2 dTgt (by decide) rfl rfl
  rw [h1] at heq
  exact Except.noConfusion heq

/-- Claim C3 amended: the first missing target is reported as an error
naming that target, but the error aborts categorization: the targets
after it are not processed and no categorization output is produced. -/
theorem c3_missing_aborts (cwd : FsPath) (pre : List Target) (t : Target) (post : List Target)
    (h1 : ∀ s ∈ pre, s.present = true) (h2 : t.present = false) :
    categorizePaths cwd (pre ++ t :: post) = Except.error (CatErr.noSuchFile t.path) :=
  categorizeAux_missing cwd pre t post [] [] h1 h2

/-- Witness for c3_missing_aborts on a concrete target list. -/
theorem c3_missing_aborts_witness :
    (∀ s ∈ [dTgt], s.present = true) ∧ mTgt.present = false ∧
    categorizePaths cwd0 ([dTgt] ++ mTgt :: [dTgt]) = Except.error (CatErr.noSuchFile mTgt.path) :=
  ⟨by decide, rfl, c3_missing_aborts cwd0 [dTgt] mTgt [dTgt] (by decide) rfl⟩

/-- Helper: a successful strip of the base yields a relative path. -/
theorem dropBase_relative (p base r : FsPath) (h : FsPath.dropBase p base = some r) :
    r.absolute = false := by
  unfold FsPath.dropBase at h
  split at h
  · cases h
    rfl
  · exact Option.noConfusion h

/-- Claim C8 fails on the code: the root path / has no file name, so when
it is not under the working directory it is passed to tar unchanged, as
an absolute path. -/
theorem c8_counterexample : ¬ claimC8prop := by
  intro h
  have h2 := h cwd0 [rootPath] rootPath (by decide)
  exact absurd h2 (by decide)

/-- Claim C8 amended: every target that is relative or has a file name is
passed to tar as a relative path; only a degenerate absolute target with
no file name (such as /) that is not under the working directory falls
through unchanged. The same holds for the per-member relativization of
tar_gz_files. -/
theorem c8_relative_args (cwd : FsPath) (targets : List FsPath)
    (h : ∀ p ∈ targets, p.absolute = false ∨ (FsPath.fileName p).isSome = true) :
    (∀ r ∈ tarArgs cwd targets, r.absolute = false) ∧
    (∀ p, (FsPath.fileName p).isSome = true → (looseRelativize cwd p).absolute = false) := by
  constructor
  · intro r hr
    obtain ⟨p, hp, rfl⟩ := List.mem_map.mp hr
    by_cases habs : p.absolute = true
    · cases hdb : FsPath.dropBase p cwd with
      | some rel =>
        simp only [relativizeTarget, habs, if_true, hdb]
        exact dropBase_relative p cwd rel hdb
      | none =>
        cases hfn : FsPath.fileName p with
        | some n => simp [relativizeTarget, habs, hdb, hfn]
        | none =>
          rcases h p hp with hrel | hsome
          · rw [habs] at hrel
            exact Bool.noConfusion hrel
          · rw [hfn] at hsome
            exact Bool.noConfusion hsome
    · have hrel : p.absolute = false := by simpa using habs
      simp [relativizeTarget, hrel]
  · intro p hfn
    cases hdb : FsPath.dropBase p cwd with
    | some rel =>
      simp only [looseRelativize, hdb]
      exact dropBase_relative p cwd rel hdb
    | none =>
      cases hfn2 : FsPath.fileName p with
      | some n => simp [looseRelativize, hdb, hfn2]
      | none =>
        rw [hfn2] at hfn
        exact Bool.noConfusion hfn

/-- Witness for c8_relative_args on concrete targets (one under the cwd,
one outside it, one relative). -/
theorem c8_relative_args_witness :
    (∀ p ∈ [paTxt, ⟨true, [Comp.normal "etc", Comp.normal "hosts"]⟩,
        (⟨false, [Comp.normal "rel.txt"]⟩ : FsPath)],
      p.absolute = false ∨ (FsPath.fileName p).isSome = true) ∧
    ((∀ r ∈ tarArgs cwd0 [paTxt, ⟨true, [Comp.normal "etc", Comp.normal "hosts"]⟩,
        ⟨false, [Comp.normal "rel.txt"]⟩], r.absolute = false) ∧
     (∀ p, (FsPath.fileName p).isSome = true → (looseRelativize cwd0 p).absolute = false)) :=
  ⟨by decide,
   c8_relative_args cwd0 [paTxt, ⟨true, [Comp.normal "etc", Comp.normal "hosts"]⟩,
     ⟨false, [Comp.normal "rel.txt"]⟩] (by decide)⟩

/-- Claim C9 fails on the code: when the listing utility cannot be found,
create_metadata aborts the unit with an error instead of recording an
empty listing. -/
theorem c9_counterexample : ¬ claimC9prop := by
  intro h
  obtain ⟨rec, heq, _⟩ := h ⟨none, none, none⟩ (some (true, "x")) rootPath [] (Or.inl rfl)
  have h2 : create_metadata ⟨none, none, none⟩ (some (true, "x")) rootPath []
      = Except.error MetaErr.ezaNotFound := rfl
  rw [h2] at heq
  exact Except.noConfusion heq

/-- Claim C9 amended: failure to locate the listing utility, or to launch
it, aborts the unit with an error; only when the command actually runs is
its stdout recorded verbatim, with no exit-status check, so a failing run
degrades to a (possibly empty) listing. -/
theorem c9_listing_behavior (env : EzaEnv) (cwd : FsPath) (targets : List FsPath) :
    (∀ e, resolve_eza_path env = Except.error e →
      ∀ exec, create_metadata env exec cwd targets = Except.error e) ∧
    (∀ p, resolve_eza_path env = Except.ok p →
      create_metadata env none cwd targets = Except.error MetaErr.execFailed) ∧
    (∀ p stOk out, resolve_eza_path env = Except.ok p →
      create_metadata env (some (stOk, out)) cwd targets
        = Except.ok ⟨cwd, targets.map targetName, out⟩) := by
  refine ⟨?_, ?_, ?_⟩
  · intro e he exec
    simp [create_metadata, he]
  · intro p hp
    simp [create_metadata, hp]
  · intro p stOk out hp
    simp [create_metadata, hp]

/-- Witness for c9_listing_behavior: a missing eza aborts, a running but
failing eza records its (empty) stdout. -/
theorem c9_listing_behavior_witness :
    create_metadata ⟨none, none, none⟩ (some (true, "listing")) cwd0 []
      = Except.error MetaErr.ezaNotFound ∧
    create_metadata ⟨some "eza", none, none⟩ (some (false, "")) cwd0 [paTxt]
      = Except.ok ⟨cwd0, [paTxt].map targetName, ""⟩ :=
  ⟨(c9_listing_behavior ⟨none, none, none⟩ cwd0 []).1 MetaErr.ezaNotFound rfl
      (some (true, "listing")),
   (c9_listing_behavior ⟨some "eza", none, none⟩ cwd0 [paTxt]).2.2 "eza" false "" rfl⟩

/-- Helper: copy_files succeeds and copies every file, in order, when the
files are all owned by the invoker or the sudo flag is set (the situation
in every call archive_group makes). -/
theorem copy_files_ok (me : Nat) (s : Bool) (l : List FileInfo)
    (h : (∀ f ∈ l, f.uid = me) ∨ s = true) :
    copy_files me s l = (l.map (fun f => Event.copiedFile f.path), none) := by
  induction l with
  | nil => rfl
  | cons f rest ih =>
    have hrest : (∀ g ∈ rest, g.uid = me) ∨ s = true := by
      rcases h with hall | hs
      · exact Or.inl (fun g hg => hall g (by simp [hg]))
      · exact Or.inr hs
    by_cases hf : f.uid = me
    · simp [copy_files, hf, ih hrest]
    · rcases h with hall | hs
      · exact absurd (hall f (by simp)) hf
      · subst hs
        simp [copy_files, hf, ih hrest]

/-- Helper: the copy stage of archive_group (guarded by the emptiness
check) succeeds and copies every loose file. -/
theorem copy_stage_ok (me : Nat) (s : Bool) (l : List FileInfo)
    (h : (∀ f ∈ l, f.uid = me) ∨ s = true) :
    (if l.isEmpty then (([] : List Event), (none : Option ArchiveErr)) else copy_files me s l)
      = (l.map (fun f => Event.copiedFile f.path), none) := by
  cases l with
  | nil => simp
  | cons f rest =>
    simp only [List.isEmpty_cons, Bool.false_eq_true, if_false]
    exact copy_files_ok me s (f :: rest) h

/-- Helper: when the privilege guard passes, archive_group copies exactly
the already-compressed files and bundles exactly the others, succeeding. -/
theorem archive_group_char (me : Nat) (group : List FileInfo) (sudoFlag : Bool)
    (h : ¬(group.any (fun f => f.uid != me) = true ∧ sudoFlag = false)) :
    archive_group me group sudoFlag
      = ((group.filter (fun f => is_archive f.path)).map (fun f => Event.copiedFile f.path)
          ++ (if (group.filter (fun f => !is_archive f.path)).isEmpty then []
              else [Event.bundleCreated
                ((group.filter (fun f => !is_archive f.path)).map (fun f => f.path))]),
         none) := by
  have hcond : (group.any (fun f => f.uid != me) && !sudoFlag) = false := by
    cases hA : group.any (fun f => f.uid != me) <;> cases hS : sudoFlag <;> simp_all
  have hdisj : (∀ f ∈ group.filter (fun f => is_archive f.path), f.uid = me)
      ∨ group.any (fun f => f.uid != me) = true := by
    cases hA : group.any (fun f => f.uid != me) with
    | true => exact Or.inr rfl
    | false =>
      refine Or.inl (fun f hf => ?_)
      have hmem : f ∈ group := (List.mem_filter.mp hf).1
      have := List.any_eq_false.mp hA f hmem
      simpa [bne_iff_ne] using this
  unfold archive_group
  rw [hcond]
  simp only [Bool.false_eq_true, if_false, List.partition_eq_filter_filter]
  rw [show (not ∘ fun (f : FileInfo) => !is_archive f.path)
      = (fun (f : FileInfo) => is_archive f.path)
    from funext (fun f => by simp [Function.comp])]
  rw [copy_stage_ok me (group.any (fun f => f.uid != me))
    (group.filter (fun f => is_archive f.path)) hdisj]

/-- Helper: every event archive_group emits is an artifact write. -/
theorem archive_group_events (me : Nat) (group : List FileInfo) (sudoFlag : Bool) :
    ∀ e ∈ (archive_group me group sudoFlag).1, isArtifact e = true := by
  intro e he
  by_cases h : group.any (fun f => f.uid != me) = true ∧ sudoFlag = false
  · rw [show archive_group me group sudoFlag = ([], some ArchiveErr.privilegeDenied) from by
      simp [archive_group, h.1, h.2]] at he
    simp at he
  · rw [archive_group_char me group sudoFlag h] at he
    rcases List.mem_append.mp he with h1 | h1
    · obtain ⟨f, _, rfl⟩ := List.mem_map.mp h1
      rfl
    · by_cases hb : (group.filter (fun f => !is_archive f.path)).isEmpty = true
      · simp [hb] at h1
      · simp [hb] at h1
        subst h1
        rfl

/-- Claim C1 fails on the code: archive writes metadata.yml before the
artifacts; already for a one-file unit the metadata event precedes the
bundle event. -/
theorem c1_counterexample : ¬ claimC1prop := by
  intro h
  have h2 := h 1000 exG1 false rfl
  have h3 := h2 ⟨0, by decide⟩ ⟨1, by decide⟩ (by decide) (by decide)
  exact absurd h3 (by decide)

/-- Claim C1 amended: metadata-file creation is the first step of a
unit's build: it precedes every archival artifact of the unit (every
event after it is an artifact write). -/
theorem c1_metadata_first (me : Nat) (group : List FileInfo) (sudoFlag : Bool) :
    (archiveGroupUnit me true group sudoFlag).1.head? = some Event.metaWritten ∧
    ∀ e ∈ (archiveGroupUnit me true group sudoFlag).1.tail, isArtifact e = true := by
  constructor
  · simp [archiveGroupUnit]
  · intro e he
    simp only [archiveGroupUnit, Bool.not_true, Bool.false_eq_true, if_false,
      List.tail_cons] at he
    exact archive_group_events me group sudoFlag e he

/-- Witness for c1_metadata_first on a concrete unit. -/
theorem c1_metadata_first_witness :
    (archiveGroupUnit 1000 true exG1 false).1.head? = some Event.metaWritten ∧
    ∀ e ∈ (archiveGroupUnit 1000 true exG1 false).1.tail, isArtifact e = true :=
  c1_metadata_first 1000 exG1 false

/-- Helper: no single archive unit ever emits the target-removal event. -/
theorem unit_no_removed (me : Nat) (ezaOk : Bool) (g : List FileInfo) (s : Bool) :
    Event.targetsRemoved ∉ (archiveGroupUnit me ezaOk g s).1 := by
  intro hmem
  cases ezaOk with
  | false => simp [archiveGroupUnit] at hmem
  | true =>
    simp only [archiveGroupUnit, Bool.not_true, Bool.false_eq_true, if_false] at hmem
    rcases List.mem_cons.mp hmem with h1 | h1
    · exact Event.noConfusion h1
    · have := archive_group_events me g s _ h1
      simp [isArtifact] at this

/-- Helper: the group loop of archive never emits the target-removal
event; removal happens only after all units, in archiveInvocation. -/
theorem groups_no_removed (me : Nat) (ezaOk : Bool) (s : Bool) (gs : List (List FileInfo)) :
    Event.targetsRemoved ∉ (archiveGroups me ezaOk s gs).1 := by
  induction gs with
  | nil => simp [archiveGroups]
  | cons g rest ih =>
    intro hmem
    by_cases he : g.isEmpty = true
    · rw [show archiveGroups me ezaOk s (g :: rest) = archiveGroups me ezaOk s rest from by
        simp [archiveGroups, he]] at hmem
      exact ih hmem
    · cases hu : (archiveGroupUnit me ezaOk g s).2 with
      | some err =>
        rw [show archiveGroups me ezaOk s (g :: rest)
            = ((archiveGroupUnit me ezaOk g s).1, some err) from by
          simp [archiveGroups, he, hu]] at hmem
        exact unit_no_removed me ezaOk g s hmem
      | none =>
        rw [show archiveGroups me ezaOk s (g :: rest)
            = ((archiveGroupUnit me ezaOk g s).1 ++ (archiveGroups me ezaOk s rest).1,
               (archiveGroups me ezaOk s rest).2) from by
          simp [archiveGroups, he, hu]] at hmem
        rcases List.mem_append.mp hmem with h1 | h1
        · exact unit_no_removed me ezaOk g s h1
        · exact ih h1

/-- Helper: when the group loop succeeds, every nonempty unit in the list
succeeded. -/
theorem archiveGroups_ok_all (me : Nat) (ezaOk : Bool) (s : Bool)
    (gs : List (List FileInfo)) (h : (archiveGroups me ezaOk s gs).2 = none) :
    ∀ g ∈ gs, g.isEmpty = true ∨ (archiveGroupUnit me ezaOk g s).2 = none := by
  induction gs with
  | nil => simp
  | cons g rest ih =>
    intro g2 hg2
    by_cases he : g.isEmpty = true
    · have h2 : (archiveGroups me ezaOk s rest).2 = none := by
        rw [show archiveGroups me ezaOk s (g :: rest) = archiveGroups me ezaOk s rest from by
          simp [archiveGroups, he]] at h
        exact h
      rcases List.mem_cons.mp hg2 with rfl | hmem
      · exact Or.inl he
      · exact ih h2 g2 hmem
    · cases hu : (archiveGroupUnit me ezaOk g s).2 with
      | some err =>
        rw [show archiveGroups me ezaOk s (g :: rest)
            = ((archiveGroupUnit me ezaOk g s).1, some err) from by
          simp [archiveGroups, he, hu]] at h
        exact Option.noConfusion h
      | none =>
        have h2 : (archiveGroups me ezaOk s rest).2 = none := by
          rw [show archiveGroups me ezaOk s (g :: rest)
              = ((archiveGroupUnit me ezaOk g s).1 ++ (archiveGroups me ezaOk s rest).1,
                 (archiveGroups me ezaOk s rest).2) from by
            simp [archiveGroups, he, hu]] at h
          exact h
        rcases List.mem_cons.mp hg2 with rfl | hmem
        · exact Or.inr hu
        · exact ih h2 g2 hmem

/-- Claim C2 fails on the code: with a foreign-owned member and sudo
disabled, the unit fails with a privilege error and performs no artifact
write and no deletion, but metadata.yml has already been written. -/
theorem c2_counterexample : ¬ claimC2prop := by
  intro h
  have h2 := (h 1000 exG2 ⟨⟨paTxt, 0⟩, by decide, by decide⟩).2.2.1
  exact h2 (by decide)

/-- Claim C2 amended: with a foreign-owned member and sudo disabled the
unit fails with a privilege error, no artifact is written and the
original targets are never deleted, but the unit's metadata file has
already been written before the privilege check. -/
theorem c2_privilege_guard (me : Nat) (group : List FileInfo)
    (h : ∃ f ∈ group, f.uid ≠ me) :
    archiveGroupUnit me true group false
      = ([Event.metaWritten], some ArchiveErr.privilegeDenied) ∧
    (∀ e ∈ (archiveGroupUnit me true group false).1, isArtifact e = false) ∧
    ∀ (gs : List (List FileInfo)) (removeFlag : Bool), group ∈ gs →
      Event.targetsRemoved ∉ (archiveInvocation me true gs false removeFlag).1 := by
  have hA : group.any (fun f => f.uid != me) = true := by
    obtain ⟨f, hf, hne⟩ := h
    exact List.any_eq_true.mpr ⟨f, hf, by simpa [bne_iff_ne] using hne⟩
  have hg : archive_group me group false = ([], some ArchiveErr.privilegeDenied) := by
    simp [archive_group, hA]
  have hu : archiveGroupUnit me true group false
      = ([Event.metaWritten], some ArchiveErr.privilegeDenied) := by
    simp [archiveGroupUnit, hg]
  refine ⟨hu, ?_, ?_⟩
  · intro e he
    rw [hu] at he
    rcases List.mem_cons.mp he with rfl | h1
    · rfl
    · simp at h1
  · intro gs removeFlag hmem hrem
    have hne : group.isEmpty = false := by
      obtain ⟨f, hf, _⟩ := h
      cases group with
      | nil => simp at hf
      | cons a as => rfl
    cases hgr : (archiveGroups me true false gs).2 with
    | some err =>
      rw [show archiveInvocation me true gs false removeFlag
          = ((archiveGroups me true false gs).1, some err) from by
        simp [archiveInvocation, hgr]] at hrem
      exact groups_no_removed me true false gs hrem
    | none =>
      rcases archiveGroups_ok_all me true false gs hgr group hmem with h1 | h1
      · rw [hne] at h1
        exact Bool.noConfusion h1
      · rw [hu] at h1
        exact Option.noConfusion h1

/-- Witness for c2_privilege_guard on a concrete foreign-owned unit. -/
theorem c2_privilege_guard_witness :
    (∃ f ∈ exG2, f.uid ≠ 1000) ∧
    (archiveGroupUnit 1000 true exG2 false
        = ([Event.metaWritten], some ArchiveErr.privilegeDenied) ∧
     (∀ e ∈ (archiveGroupUnit 1000 true exG2 false).1, isArtifact e = false) ∧
     ∀ (gs : List (List FileInfo)) (removeFlag : Bool), exG2 ∈ gs →
       Event.targetsRemoved ∉ (archiveInvocation 1000 true gs false removeFlag).1) :=
  ⟨⟨⟨paTxt, 0⟩, by decide, by decide⟩,
   c2_privilege_guard 1000 exG2 ⟨⟨paTxt, 0⟩, by decide, by decide⟩⟩

/-- Claim C10 confirmed: the already-compressed classification depends
only on the lowercased final extension against the fixed set, a path
without an extension is never an archive, and a successful archive_group
copies exactly the already-compressed files of the group while all other
files go into the single compressed bundle. -/
theorem c10_classification (p : FsPath) (me : Nat) (group : List FileInfo) (sudoFlag : Bool)
    (h : (archive_group me group sudoFlag).2 = none) :
    (is_archive p = true ↔ ∃ e, FsPath.extension p = some e ∧ lowerStr e ∈ archiveExts) ∧
    (FsPath.extension p = none → is_archive p = false) ∧
    (∀ q, Event.copiedFile q ∈ (archive_group me group sudoFlag).1 ↔
      ∃ f, f ∈ group ∧ f.path = q ∧ is_archive f.path = true) ∧
    (∀ l, Event.bundleCreated l ∈ (archive_group me group sudoFlag).1 →
      l = (group.filter (fun f => !is_archive f.path)).map (fun f => f.path)) ∧
    ((∃ f, f ∈ group ∧ is_archive f.path = false) →
      Event.bundleCreated ((group.filter (fun f => !is_archive f.path)).map (fun f => f.path))
        ∈ (archive_group me group sudoFlag).1) := by
  have hng : ¬(group.any (fun f => f.uid != me) = true ∧ sudoFlag = false) := by
    intro hc
    rw [show archive_group me group sudoFlag = ([], some ArchiveErr.privilegeDenied) from by
      simp [archive_group, hc.1, hc.2]] at h
    exact Option.noConfusion h
  have hchar := archive_group_char me group sudoFlag hng
  refine ⟨?_, ?_, ?_, ?_, ?_⟩
  · cases hx : FsPath.extension p with
    | none => simp [is_archive, hx]
    | some e =>
      simp [is_archive, hx, archiveExts]
      tauto
  · intro hx
    simp [is_archive, hx]
  · intro q
    rw [hchar]
    constructor
    · intro hin
      rcases List.mem_append.mp hin with h1 | h1
      · obtain ⟨f, hf, heq⟩ := List.mem_map.mp h1
        obtain ⟨hfg, hfa⟩ := List.mem_filter.mp hf
        refine ⟨f, hfg, ?_, hfa⟩
        injection heq
      · by_cases hb : (group.filter (fun f => !is_archive f.path)).isEmpty = true
        · simp [hb] at h1
        · simp [hb] at h1
    · rintro ⟨f, hfg, hpq, hfa⟩
      apply List.mem_append.mpr
      left
      apply List.mem_map.mpr
      exact ⟨f, List.mem_filter.mpr ⟨hfg, hfa⟩, by rw [hpq]⟩
  · intro l hl
    rw [hchar] at hl
    rcases List.mem_append.mp hl with h1 | h1
    · obtain ⟨f, _, heq⟩ := List.mem_map.mp h1
      exact Event.noConfusion heq
    · by_cases hb : (group.filter (fun f => !is_archive f.path)).isEmpty = true
      · simp [hb] at h1
      · simp [hb] at h1
        exact h1
  · rintro ⟨f, hfg, hfa⟩
    have hmem : f ∈ group.filter (fun f => !is_archive f.path) :=
      List.mem_filter.mpr ⟨hfg, by simp [hfa]⟩
    have hne : (group.filter (fun f => !is_archive f.path)).isEmpty = false := by
      cases hl : group.filter (fun f => !is_archive f.path) with
      | nil =>
        rw [hl] at hmem
        simp at hmem
      | cons a rest => rfl
    rw [hchar]
    simp [hne]

/-- Witness for c10_classification on a mixed concrete group. -/
theorem c10_classification_witness :
    (archive_group 1000 exMix false).2 = none ∧
    ((is_archive paTgz = true ↔ ∃ e, FsPath.extension paTgz = some e ∧ lowerStr e ∈ archiveExts) ∧
     (FsPath.extension paTgz = none → is_archive paTgz = false) ∧
     (∀ q, Event.copiedFile q ∈ (archive_group 1000 exMix false).1 ↔
       ∃ f, f ∈ exMix ∧ f.path = q ∧ is_archive f.path = true) ∧
     (∀ l, Event.bundleCreated l ∈ (archive_group 1000 exMix false).1 →
       l = (exMix.filter (fun f => !is_archive f.path)).map (fun f => f.path)) ∧
     ((∃ f, f ∈ exMix ∧ is_archive f.path = false) →
       Event.bundleCreated ((exMix.filter (fun f => !is_archive f.path)).map (fun f => f.path))
         ∈ (archive_group 1000 exMix false).1)) :=
  ⟨rfl, c10_classification paTgz 1000 exMix false rfl⟩

/-- Helper: a restoration loop succeeds exactly when every member's
restoration succeeds. -/
theorem runRestores_ok_iff (mk : String → REvent) (l : List BatchFile) :
    (runRestores mk l).2 = true ↔ ∀ f ∈ l, f.restoreOk = true := by
  induction l with
  | nil => simp [runRestores]
  | cons f rest ih =>
    by_cases hf : f.restoreOk = true
    · simp [runRestores, hf, ih]
    · have hf2 : f.restoreOk = false := by simpa using hf
      simp [runRestores, hf2]

/-- Helper: a fully successful restoration loop restores every member in
order. -/
theorem runRestores_trace_ok (mk : String → REvent) (l : List BatchFile)
    (h : ∀ f ∈ l, f.restoreOk = true) :
    (runRestores mk l).1 = l.map (fun f => mk f.name) := by
  induction l with
  | nil => rfl
  | cons f rest ih =>
    have hf : f.restoreOk = true := h f (by simp)
    simp [runRestores, hf, ih (fun g hg => h g (by simp [hg]))]

/-- Helper: every event of a restoration loop is a restore event built by
its constructor. -/
theorem runRestores_shape (mk : String → REvent) (l : List BatchFile) :
    ∀ e ∈ (runRestores mk l).1, ∃ n, e = mk n := by
  induction l with
  | nil => simp [runRestores]
  | cons f rest ih =>
    intro e he
    by_cases hf : f.restoreOk = true
    · simp only [runRestores, hf, if_true] at he
      rcases List.mem_cons.mp he with rfl | h1
      · exact ⟨f.name, rfl⟩
      · exact ih e h1
    · have hf2 : f.restoreOk = false := by simpa using hf
      simp [runRestores, hf2] at he

/-- Helper: full characterization of the restoration sequence: the batch
is removed exactly when every member restores, the removal event is last,
and every member has its restore event in the trace. -/
theorem recoverCore_char (tc tx : List BatchFile) :
    ((recoverCore tc tx).2 = true ↔
      (∀ f ∈ tc, f.restoreOk = true) ∧ (∀ f ∈ tx, f.restoreOk = true)) ∧
    (REvent.batchRemoved ∈ (recoverCore tc tx).1 ↔ (recoverCore tc tx).2 = true) ∧
    ((recoverCore tc tx).2 = true →
      (recoverCore tc tx).1.getLast? = some REvent.batchRemoved ∧
      (∀ f ∈ tx, REvent.extracted f.name ∈ (recoverCore tc tx).1) ∧
      (∀ f ∈ tc, REvent.restoredCopy f.name ∈ (recoverCore tc tx).1)) := by
  by_cases hx : (runRestores REvent.extracted tx).2 = false
  · have hrc : recoverCore tc tx = ((runRestores REvent.extracted tx).1, false) := by
      simp [recoverCore, hx]
    rw [hrc]
    refine ⟨?_, ?_, ?_⟩
    · constructor
      · intro habs
        exact Bool.noConfusion habs
      · rintro ⟨h1, h2⟩
        rw [(runRestores_ok_iff REvent.extracted tx).mpr h2] at hx
        exact Bool.noConfusion hx
    · constructor
      · intro hm
        obtain ⟨n, heq⟩ := runRestores_shape REvent.extracted tx _ hm
        exact REvent.noConfusion heq
      · intro habs
        exact Bool.noConfusion habs
    · intro habs
      exact Bool.noConfusion habs
  · have hx2 : (runRestores REvent.extracted tx).2 = true := by simpa using hx
    by_cases hc : (runRestores REvent.restoredCopy tc).2 = false
    · have hrc : recoverCore tc tx
          = ((runRestores REvent.extracted tx).1 ++ (runRestores REvent.restoredCopy tc).1,
             false) := by
        simp [recoverCore, hx2, hc]
      rw [hrc]
      refine ⟨?_, ?_, ?_⟩
      · constructor
        · intro habs
          exact Bool.noConfusion habs
        · rintro ⟨h1, h2⟩
          rw [(runRestores_ok_iff REvent.restoredCopy tc).mpr h1] at hc
          exact Bool.noConfusion hc
      · constructor
        · intro hm
          rcases List.mem_append.mp hm with h1 | h1
          · obtain ⟨n, heq⟩ := runRestores_shape REvent.extracted tx _ h1
            exact REvent.noConfusion heq
          · obtain ⟨n, heq⟩ := runRestores_shape REvent.restoredCopy tc _ h1
            exact REvent.noConfusion heq
        · intro habs
          exact Bool.noConfusion habs
      · intro habs
        exact Bool.noConfusion habs
    · have hc2 : (runRestores REvent.restoredCopy tc).2 = true := by simpa using hc
      have hrc : recoverCore tc tx
          = ((runRestores REvent.extracted tx).1 ++ (runRestores REvent.restoredCopy tc).1
              ++ [REvent.batchRemoved],
             true) := by
        simp [recoverCore, hx2, hc2]
      rw [hrc]
      refine ⟨?_, ?_, ?_⟩
      · constructor
        · intro _
          exact ⟨(runRestores_ok_iff REvent.restoredCopy tc).mp hc2,
                 (runRestores_ok_iff REvent.extracted tx).mp hx2⟩
        · intro _
          rfl
      · constructor
        · intro _
          rfl
        · intro _
          simp
      · intro _
        refine ⟨?_, ?_, ?_⟩
        · exact List.getLast?_concat _
        · intro f hf
          apply List.mem_append.mpr
          left
          apply List.mem_append.mpr
          left
          rw [runRestores_trace_ok REvent.extracted tx
            ((runRestores_ok_iff REvent.extracted tx).mp hx2)]
          exact List.mem_map.mpr ⟨f, hf, rfl⟩
        · intro f hf
          apply List.mem_append.mpr
          left
          apply List.mem_append.mpr
          right
          rw [runRestores_trace_ok REvent.restoredCopy tc
            ((runRestores_ok_iff REvent.restoredCopy tc).mp hc2)]
          exact List.mem_map.mpr ⟨f, hf, rfl⟩

/-- Claim C7 confirmed: recovery of one batch is all-or-nothing: the
batch directory is removed exactly when every member (copied file or
bundle) restores successfully, the removal is the last step, after every
member's restoration; if any member fails, no removal event occurs. -/
theorem c7_all_or_nothing (origs : List String) (files : List BatchFile) :
    ((recoverBatch origs files).2 = true ↔
      ∀ f ∈ batchEntries files, f.restoreOk = true) ∧
    (REvent.batchRemoved ∈ (recoverBatch origs files).1 ↔ (recoverBatch origs files).2 = true) ∧
    ((recoverBatch origs files).2 = true →
      (recoverBatch origs files).1.getLast? = some REvent.batchRemoved ∧
      ∀ f ∈ batchEntries files,
        REvent.extracted f.name ∈ (recoverBatch origs files).1 ∨
        REvent.restoredCopy f.name ∈ (recoverBatch origs files).1) := by
  have hrw : recoverBatch origs files
      = recoverCore ((batchEntries files).filter (fun f => origs.contains f.name))
          ((batchEntries files).filter (not ∘ fun f => origs.contains f.name)) := by
    simp [recoverBatch, List.partition_eq_filter_filter]
  obtain ⟨hiff, hrem, hlast⟩ :=
    recoverCore_char ((batchEntries files).filter (fun f => origs.contains f.name))
      ((batchEntries files).filter (not ∘ fun f => origs.contains f.name))
  rw [hrw]
  refine ⟨?_, hrem, ?_⟩
  · rw [hiff]
    constructor
    · rintro ⟨h1, h2⟩ f hf
      by_cases hp : origs.contains f.name = true
      · exact h1 f (List.mem_filter.mpr ⟨hf, hp⟩)
      · have hp2 : origs.contains f.name = false := by simpa using hp
        exact h2 f (List.mem_filter.mpr ⟨hf, by simp [Function.comp]; simpa using hp2⟩)
    · intro hall
      exact ⟨fun f hf => hall f (List.mem_filter.mp hf).1,
             fun f hf => hall f (List.mem_filter.mp hf).1⟩
  · intro ht
    obtain ⟨hl, hX, hC⟩ := hlast ht
    refine ⟨hl, ?_⟩
    intro f hf
    by_cases hp : origs.contains f.name = true
    · exact Or.inr (hC f (List.mem_filter.mpr ⟨hf, hp⟩))
    · have hp2 : origs.contains f.name = false := by simpa using hp
      exact Or.inl (hX f (List.mem_filter.mpr ⟨hf, by simp [Function.comp]; simpa using hp2⟩))

/-- Witness for c7_all_or_nothing on the spec's recovery scenario. -/
theorem c7_all_or_nothing_witness :
    ((recoverBatch ["a.txt"] exBatch).2 = true ↔
      ∀ f ∈ batchEntries exBatch, f.restoreOk = true) ∧
    (REvent.batchRemoved ∈ (recoverBatch ["a.txt"] exBatch).1 ↔
      (recoverBatch ["a.txt"] exBatch).2 = true) ∧
    ((recoverBatch ["a.txt"] exBatch).2 = true →
      (recoverBatch ["a.txt"] exBatch).1.getLast? = some REvent.batchRemoved ∧
      ∀ f ∈ batchEntries exBatch,
        REvent.extracted f.name ∈ (recoverBatch ["a.txt"] exBatch).1 ∨
        REvent.restoredCopy f.name ∈ (recoverBatch ["a.txt"] exBatch).1) :=
  c7_all_or_nothing ["a.txt"] exBatch

end Rkvr
